import Mathlib

/-!
Shallow embedding of the weighted-center line follower `sToM-2.0.py`
(MCP3004 + DRV8835 + gpiozero).

The Python floats are modelled by rationals; every numeric constant of the
source (`0.55`, `0.05`, `1e-9`, ...) is an exact decimal, rendered here as the
corresponding rational.  Hardware I/O (`MCP3004.value`, `Robot.value`) is
modelled by explicit inputs and outputs: a loop cycle takes the raw sensor
readings and returns the motor command it writes, and the soft-start ramp is
modelled by the list of commands it issues together with its inter-step delay.
-/

namespace SToM2

/-- Tuning constant `WHITE_IS_HIGH = True` (line 15). -/
def WHITE_IS_HIGH : Bool := true

/-- Tuning constant `THRESH = 0.55` (line 16). -/
def THRESH : ℚ := 55/100

/-- Tuning constant `SMOOTH_N = 4` (line 18). -/
def SMOOTH_N : ℕ := 4

/-- Tuning constant `BASE_SPEED = 0.45` (line 21). -/
def BASE_SPEED : ℚ := 45/100

/-- Tuning constant `STEER_GAIN = 0.8` (line 22). -/
def STEER_GAIN : ℚ := 8/10

/-- Tuning constant `DEADBAND = 0.05` (line 23). -/
def DEADBAND : ℚ := 5/100

/-- Tuning constant `LOSS_COUNT_LIMIT = 6` (line 25). -/
def LOSS_COUNT_LIMIT : ℕ := 6

/-- Tuning constant `RAMP_TIME = 0.6` (line 28). -/
def RAMP_TIME : ℚ := 6/10

/-- Python `normalize(raw, white_is_high)` (lines 37-40). -/
def normalize (raw : ℚ) (white_is_high : Bool) : ℚ :=
  if white_is_high then raw else 1 - raw

/-- Python `statistics.fmean`: the arithmetic mean of a list. -/
def fmean (l : List ℚ) : ℚ := l.sum / l.length

/-- Python `moving_average(buf, new_val, n)` (lines 43-50).  The Python function
mutates `buf`; the model returns the updated buffer together with the value
returned.  `buf.append` adds at the end, `buf.pop(0)` drops the oldest
(front) element. -/
def moving_average (buf : List ℚ) (new_val : ℚ) (n : ℕ) : List ℚ × ℚ :=
  if n ≤ 1 then (buf, new_val)
  else
    let buf1 := buf ++ [new_val]
    let buf2 := if n < buf1.length then buf1.tail else buf1
    (buf2, fmean buf2)

/-- The per-channel position weights `[(i - (n-1)/2) / ((n-1)/2) for i in range(n)]`
(line 63). -/
def weights (n : ℕ) : List ℚ :=
  (List.range n).map (fun i => ((i : ℚ) - ((n : ℚ) - 1)/2) / (((n : ℚ) - 1)/2))

/-- The raw weighted centroid `sum(w*v for w, v in zip(weights, values)) / s`
with `s = sum(values) + 1e-9` (lines 64-65), before deadband and clamping. -/
def centroid_raw (values : List ℚ) : ℚ :=
  let w := weights values.length
  let s := values.sum + 1/1000000000
  (((w.zip values).map (fun p => p.1 * p.2)).sum) / s

/-- Python `compute_center(values)` (lines 53-69): early return `0.0` for a
single channel, otherwise the weighted centroid with deadband and a final clamp
to `[-1, 1]`.  Its docstring (lines 54-58) states the intended sign convention:
`-1` means the line is on the left, `+1` on the right, `0` centered. -/
def compute_center (values : List ℚ) : ℚ :=
  if values.length = 1 then 0
  else
    let center := centroid_raw values
    let center := if |center| < DEADBAND then 0 else center
    max (-1) (min 1 center)

/-- Python `mix_to_motors(base_speed, steer, gain)` (lines 72-83). -/
def mix_to_motors (base_speed steer gain : ℚ) : ℚ × ℚ :=
  let diff := gain * steer
  let left := base_speed - diff
  let right := base_speed + diff
  (max (-1) (min 1 left), max (-1) (min 1 right))

/-- One command issued by `ramp` (line 90): `a = k/steps`,
`robot.value = (target_left*a, target_right*a)`, for the 1-based loop index
`k`. -/
def rampStep (target_left target_right : ℚ) (steps k : ℕ) : ℚ × ℚ :=
  let a : ℚ := (k : ℚ) / (steps : ℚ)
  (target_left * a, target_right * a)

/-- The full sequence of commands issued by `ramp(robot, tl, tr, t_ramp, steps)`
(lines 86-91): one command per `k in range(1, steps+1)`. -/
def rampCommands (target_left target_right : ℚ) (steps : ℕ) : List (ℚ × ℚ) :=
  (List.range steps).map (fun j => rampStep target_left target_right steps (j + 1))

/-- The inter-step sleep of `ramp`: `time.sleep(max(0.0, t_ramp/steps))`
(line 91). -/
def rampDelay (t_ramp : ℚ) (steps : ℕ) : ℚ := max 0 (t_ramp / (steps : ℚ))

/-- The parsed command-line arguments of `main` (lines 95-105). -/
structure Args where
  monitor : Bool
  speed : ℚ
  gain : ℚ
  hz : ℚ

/-- The per-run mutable state of the control loop: the per-channel smoothing
buffers `smooth_bufs` and the loss counter `loss_cnt` (lines 117-118). -/
structure LoopState where
  bufs : List (List ℚ)
  loss_cnt : ℕ

/-- The initial loop state: `smooth_bufs = [[] for _ in sensors]` (four
sensors, line 108 and 117) and `loss_cnt = 0` (line 118). -/
def initialState : LoopState := { bufs := [[], [], [], []], loss_cnt := 0 }

/-- Python `period = 1.0 / max(1.0, args.hz)` (line 119), the inter-cycle sleep
used by `time.sleep(period)` (line 163). -/
def period (hz : ℚ) : ℚ := 1 / max 1 hz

/-- Startup (lines 94-119): the source performs no validation of the parsed
arguments; every configuration unconditionally yields the initial loop state
and the loop period, and the control loop is entered. -/
def startup (args : Args) : LoopState × ℚ := (initialState, period args.hz)

/-- The presence test `is_dark_like` / `line_present` (lines 137-138): true iff
any smoothed value is below `THRESH`. -/
def line_present (vals : List ℚ) : Bool :=
  vals.any (fun v => decide (v < THRESH))

/-- Steps 4 and 5 of the loop body (lines 144-156): the loss counter update,
speed mixing and the loss-limit override.  Returns the new counter together
with the command written to `robot.value`. -/
def lossStep (monitor present : Bool) (cnt : ℕ) (speed center gain : ℚ) :
    ℕ × (ℚ × ℚ) :=
  let p : ℕ × (ℚ × ℚ) :=
    if monitor || !present then (cnt + 1, (0, 0))
    else (0, mix_to_motors speed center gain)
  (p.1, if LOSS_COUNT_LIMIT ≤ p.1 then ((0 : ℚ), (0 : ℚ)) else p.2)

/-- The per-cycle smoothing pass (lines 131-132): each channel's value runs
through `moving_average` with its own buffer.  Returns the updated buffers and
the smoothed values. -/
def smoothStep (bufs : List (List ℚ)) (vals : List ℚ) :
    List (List ℚ) × List ℚ :=
  let pairs := (bufs.zip vals).map (fun p => moving_average p.1 p.2 SMOOTH_N)
  (pairs.map Prod.fst, pairs.map Prod.snd)

/-- One full iteration of the control loop (lines 126-156) on the raw sensor
readings of the cycle: normalize, smooth, detect presence, compute the
centroid, update the loss counter and produce the motor command written to
`robot.value`. -/
def loopCycle (args : Args) (st : LoopState) (raw_vals : List ℚ) :
    LoopState × (ℚ × ℚ) :=
  let vals0 := raw_vals.map (fun v => normalize v WHITE_IS_HIGH)
  let sm := smoothStep st.bufs vals0
  let present := line_present sm.2
  let center := compute_center sm.2
  let r := lossStep args.monitor present st.loss_cnt args.speed center args.gain
  ({ bufs := sm.1, loss_cnt := r.1 }, r.2)

/-- The loss counter after `k` consecutive cycles without line presence
(driving mode), starting from counter 0. -/
def lossRunCnt (speed center gain : ℚ) : ℕ → ℕ
  | 0 => 0
  | k + 1 => (lossStep false false (lossRunCnt speed center gain k) speed center gain).1

/-- Feeding a list of inputs sequentially through `moving_average` with one
buffer: returns the list of buffer states after each input together with the
list of outputs. -/
def feedAll (n : ℕ) : List ℚ → List ℚ → List (List ℚ) × List ℚ
  | _, [] => ([], [])
  | buf, x :: rest =>
    let r := moving_average buf x n
    let t := feedAll n r.1 rest
    (r.1 :: t.1, r.2 :: t.2)

/-! Helper lemmas. -/

/-- The four-channel weight vector evaluates to `[-1, -1/3, 1/3, 1]`. -/
theorem weights_four : weights 4 = [-1, -1/3, 1/3, 1] := by
  simp [weights, List.range_succ]; norm_num

/-- Evaluation of `compute_center` outside the deadband. -/
theorem compute_center_eval (v : List ℚ) (c : ℚ) (hlen : v.length ≠ 1)
    (hc : centroid_raw v = c) (hd : ¬ |c| < DEADBAND) (h1 : c ≤ 1)
    (h2 : -1 ≤ c) : compute_center v = c := by
  simp only [compute_center, hc, if_neg hlen, if_neg hd, min_eq_right h1,
    max_eq_right h2]

/-- Evaluation of `compute_center` inside the deadband. -/
theorem compute_center_inside_deadband (v : List ℚ) (hlen : v.length ≠ 1)
    (hd : |centroid_raw v| < DEADBAND) : compute_center v = 0 := by
  have h0 : (if |centroid_raw v| < DEADBAND then (0 : ℚ) else centroid_raw v) = 0 :=
    if_pos hd
  simp only [compute_center, if_neg hlen, h0]
  norm_num

/-- The raw centroid of the symmetric vector with the lower readings on the
right half. -/
theorem centroid_raw_low_right :
    centroid_raw [8/10, 8/10, 2/10, 2/10] = -(800000000/2000000001) := by
  have hl : ([8/10, 8/10, 2/10, 2/10] : List ℚ).length = 4 := rfl
  simp only [centroid_raw, hl, weights_four]
  simp [List.zip]
  norm_num

/-- The raw centroid of the symmetric vector with the lower readings on the
left half. -/
theorem centroid_raw_low_left :
    centroid_raw [2/10, 2/10, 8/10, 8/10] = 800000000/2000000001 := by
  have hl : ([2/10, 2/10, 8/10, 8/10] : List ℚ).length = 4 := rfl
  simp only [centroid_raw, hl, weights_four]
  simp [List.zip]
  norm_num

/-- The raw centroid of the all-equal vector is zero. -/
theorem centroid_raw_flat : centroid_raw [1/2, 1/2, 1/2, 1/2] = 0 := by
  have hl : ([1/2, 1/2, 1/2, 1/2] : List ℚ).length = 4 := rfl
  simp only [centroid_raw, hl, weights_four]
  simp [List.zip]
  norm_num

/-- The clamp `max (-1) (min 1 x)` always lands in `[-1, 1]`. -/
theorem clip_mem (x : ℚ) : -1 ≤ max (-1) (min 1 x) ∧ max (-1) (min 1 x) ≤ 1 :=
  ⟨le_max_left _ _, max_le (by norm_num) (min_le_left _ _)⟩

/-- Whatever the mode, presence, counter and configuration, the command
produced by the loss/override block lies in `[-1, 1] × [-1, 1]`. -/
theorem lossStep_cmd_mem (m p : Bool) (cnt : ℕ) (s c g : ℚ) :
    -1 ≤ ((lossStep m p cnt s c g).2).1 ∧ ((lossStep m p cnt s c g).2).1 ≤ 1 ∧
    -1 ≤ ((lossStep m p cnt s c g).2).2 ∧ ((lossStep m p cnt s c g).2).2 ≤ 1 := by
  unfold lossStep mix_to_motors
  cases m <;> cases p <;> simp [LOSS_COUNT_LIMIT]

/-- The magnitude of every ramp command component is nondecreasing from one
step to the next, strictly when the target component is nonzero. -/
theorem rampStep_mono (t : ℚ) (steps k : ℕ) (hs : 0 < steps) :
    |t * ((k : ℚ) / (steps : ℚ))| ≤ |t * (((k + 1 : ℕ) : ℚ) / (steps : ℚ))| ∧
    (t ≠ 0 →
      |t * ((k : ℚ) / (steps : ℚ))| < |t * (((k + 1 : ℕ) : ℚ) / (steps : ℚ))|) := by
  have hsq : (0 : ℚ) < (steps : ℚ) := by exact_mod_cast hs
  have hk1 : ((k : ℚ)) / (steps : ℚ) < ((k + 1 : ℕ) : ℚ) / (steps : ℚ) := by
    apply div_lt_div_of_pos_right ?_ hsq
    push_cast; linarith
  have hk0 : (0 : ℚ) ≤ (k : ℚ) / (steps : ℚ) := by positivity
  have hk2 : (0 : ℚ) ≤ ((k + 1 : ℕ) : ℚ) / (steps : ℚ) := by positivity
  constructor
  · rw [abs_mul, abs_mul, abs_of_nonneg hk0, abs_of_nonneg hk2]
    exact mul_le_mul_of_nonneg_left (le_of_lt hk1) (abs_nonneg t)
  · intro h0
    rw [abs_mul, abs_mul, abs_of_nonneg hk0, abs_of_nonneg hk2]
    exact mul_lt_mul_of_pos_left hk1 (abs_pos.mpr h0)

/-! Claim theorems. -/

/-- Claim C1 (code bug).  For the symmetric N = 4 vectors the per-channel
weights are indeed `[-1, -1/3, 1/3, 1]` and the magnitude of the result stays
within `[-1, 1]`, but the sign is the opposite of what the claim (and the
docstring of `compute_center` itself) states: with the lower, line-like
readings on the right half (`[0.8, 0.8, 0.2, 0.2]`) the function returns a
negative value, and with the lower readings on the left half
(`[0.2, 0.2, 0.8, 0.8]`) a positive one — the value-weighted centroid points
at the high (background) side, not at the line. -/
theorem C1_centroid_sign_code_bug :
    weights 4 = [-1, -1/3, 1/3, 1] ∧
    compute_center [8/10, 8/10, 2/10, 2/10] = -(800000000/2000000001) ∧
    compute_center [8/10, 8/10, 2/10, 2/10] < 0 ∧
    compute_center [2/10, 2/10, 8/10, 8/10] = 800000000/2000000001 ∧
    0 < compute_center [2/10, 2/10, 8/10, 8/10] ∧
    |compute_center [8/10, 8/10, 2/10, 2/10]| ≤ 1 := by
  have e1 : compute_center [8/10, 8/10, 2/10, 2/10] = -(800000000/2000000001) := by
    refine compute_center_eval _ _ (by simp) centroid_raw_low_right ?_
      (by norm_num) (by norm_num)
    rw [abs_neg, abs_of_nonneg (by norm_num)]
    norm_num [DEADBAND]
  have e2 : compute_center [2/10, 2/10, 8/10, 8/10] = 800000000/2000000001 := by
    refine compute_center_eval _ _ (by simp) centroid_raw_low_left ?_
      (by norm_num) (by norm_num)
    rw [abs_of_nonneg (by norm_num)]
    norm_num [DEADBAND]
  refine ⟨weights_four, e1, ?_, e2, ?_, ?_⟩
  · rw [e1]; norm_num
  · rw [e2]; norm_num
  · rw [e1, abs_neg, abs_of_nonneg (by norm_num)]; norm_num

/-- Claim C2.  In driving mode (monitor flag off): starting from counter 0
(`TRACKING`), presence false for exactly `LOSS_COUNT_LIMIT` consecutive cycles
drives the counter to the limit (`EMERGENCY_STOP`); in every absent cycle the
motor command is `(0, 0)`, and once the counter is at or past the limit it
stays there as long as presence is absent; a single cycle with presence true,
from any counter value, resets the counter to 0 and resumes the normal
steering-mixer command (`TRACKING`). -/
theorem C2_loss_state_machine (speed center gain : ℚ) (cnt : ℕ) :
    lossRunCnt speed center gain LOSS_COUNT_LIMIT = LOSS_COUNT_LIMIT ∧
    (lossStep false false cnt speed center gain).2 = (0, 0) ∧
    (LOSS_COUNT_LIMIT ≤ cnt →
      LOSS_COUNT_LIMIT ≤ (lossStep false false cnt speed center gain).1) ∧
    (lossStep false true cnt speed center gain).1 = 0 ∧
    (lossStep false true cnt speed center gain).2 =
      mix_to_motors speed center gain := by
  refine ⟨rfl, by simp [lossStep], ?_, rfl, rfl⟩
  intro h
  have h1 : (lossStep false false cnt speed center gain).1 = cnt + 1 := rfl
  rw [h1]
  omega

/-- Witness for C2 at a concrete configuration and counter. -/
theorem C2_loss_state_machine_witness :
    LOSS_COUNT_LIMIT ≤ 7 ∧
    LOSS_COUNT_LIMIT ≤ (lossStep false false 7 (45/100) (1/10) (8/10)).1 ∧
    lossRunCnt (45/100) (1/10) (8/10) LOSS_COUNT_LIMIT = LOSS_COUNT_LIMIT :=
  ⟨by decide,
   (C2_loss_state_machine (45/100) (1/10) (8/10) 7).2.2.1 (by decide),
   (C2_loss_state_machine (45/100) (1/10) (8/10) 7).1⟩

/-- Counterexample to claim C3 as stated.  `main` itself calls
`ramp(robot, 0.0, 0.0, t_ramp=0.2)`: for the target `(0, 0)` the issued
sequence is constant, hence not strictly monotonically increasing in
magnitude; and for a negative ramp duration the inter-step delay is `0`, not
`duration/steps`. -/
theorem C3_ramp_claim_counterexample :
    rampCommands 0 0 4 = [(0, 0), (0, 0), (0, 0), (0, 0)] ∧
    ¬ ((rampCommands 0 0 4).Pairwise
        (fun p q : ℚ × ℚ => |p.1| < |q.1| ∧ |p.2| < |q.2|)) ∧
    rampDelay (-1) 4 = 0 ∧ ((-1 : ℚ)/4 ≠ 0) := by
  have h2 : rampCommands 0 0 4 = [(0, 0), (0, 0), (0, 0), (0, 0)] := by
    simp [rampCommands, rampStep, List.range_succ]
  refine ⟨h2, ?_, by simp [rampDelay]; norm_num, by norm_num⟩
  rw [h2]
  intro h
  rcases List.pairwise_cons.mp h with ⟨hhead, _⟩
  have h3 := hhead (0, 0) (by simp)
  simp at h3

/-- Claim C3 as amended.  For every target pair, duration and step count the
ramp issues exactly the commands `(target_left * (k/steps), target_right *
(k/steps))` for `k = 1..steps`; the magnitude of each component is
nondecreasing from step to step, strictly increasing when the corresponding
target component is nonzero; the inter-step delay is `max 0 (duration/steps)`;
and for target `(0.5, 0.5)` over 4 steps the sequence is exactly
`[(0.125, 0.125), (0.25, 0.25), (0.375, 0.375), (0.5, 0.5)]`. -/
theorem C3_ramp_amended (tl tr t : ℚ) (steps k : ℕ) (hs : 0 < steps) :
    rampCommands tl tr steps =
      (List.range steps).map (fun j => rampStep tl tr steps (j + 1)) ∧
    rampStep tl tr steps k =
      (tl * ((k : ℚ) / (steps : ℚ)), tr * ((k : ℚ) / (steps : ℚ))) ∧
    (|(rampStep tl tr steps k).1| ≤ |(rampStep tl tr steps (k + 1)).1| ∧
     |(rampStep tl tr steps k).2| ≤ |(rampStep tl tr steps (k + 1)).2|) ∧
    ((tl ≠ 0 →
        |(rampStep tl tr steps k).1| < |(rampStep tl tr steps (k + 1)).1|) ∧
     (tr ≠ 0 →
        |(rampStep tl tr steps k).2| < |(rampStep tl tr steps (k + 1)).2|)) ∧
    rampDelay t steps = max 0 (t / (steps : ℚ)) ∧
    rampCommands (1/2) (1/2) 4 =
      [(1/8, 1/8), (1/4, 1/4), (3/8, 3/8), (1/2, 1/2)] := by
  refine ⟨rfl, rfl, ⟨(rampStep_mono tl steps k hs).1, (rampStep_mono tr steps k hs).1⟩,
    ⟨(rampStep_mono tl steps k hs).2, (rampStep_mono tr steps k hs).2⟩, rfl, ?_⟩
  simp [rampCommands, rampStep, List.range_succ]
  norm_num

/-- Witness for C3 as amended, at target `(0.5, 0.5)`, duration `0.2`,
4 steps, step index 1. -/
theorem C3_ramp_amended_witness :
    (0 < 4) ∧ ((1 : ℚ)/2 ≠ 0) ∧
    rampCommands (1/2) (1/2) 4 =
      [(1/8, 1/8), (1/4, 1/4), (3/8, 3/8), (1/2, 1/2)] ∧
    |(rampStep (1/2) (1/2) 4 1).1| < |(rampStep (1/2) (1/2) 4 2).1| :=
  ⟨by decide, by norm_num,
   (C3_ramp_amended (1/2) (1/2) (1/5) 4 1 (by decide)).2.2.2.2.2,
   (C3_ramp_amended (1/2) (1/2) (1/5) 4 1 (by decide)).2.2.2.1.1 (by norm_num)⟩

/-- Counterexample to claim C4 as stated.  In monitor-only mode the counter is
incremented even on a cycle where line presence is detected: from the fresh
state, raw readings `[0, 0, 0, 0]` make every smoothed value fall below
`THRESH` (presence true), yet the loss counter becomes 1, not 0. -/
theorem C4_counter_claim_counterexample :
    line_present ((smoothStep initialState.bufs
      ([0, 0, 0, 0].map (fun v => normalize v WHITE_IS_HIGH))).2) = true ∧
    (loopCycle ⟨true, 45/100, 8/10, 25⟩ initialState [0, 0, 0, 0]).1.loss_cnt
      ≠ 0 := by
  constructor
  · simp [smoothStep, moving_average, SMOOTH_N, fmean, normalize,
      WHITE_IS_HIGH, line_present, THRESH, initialState]
  · have h : (loopCycle ⟨true, 45/100, 8/10, 25⟩ initialState
        [0, 0, 0, 0]).1.loss_cnt = 1 := by
      simp [loopCycle, initialState, smoothStep, moving_average, SMOOTH_N,
        fmean, normalize, WHITE_IS_HIGH, line_present, THRESH, lossStep]
    rw [h]
    omega

/-- Claim C4 as amended.  In driving mode (monitor flag off) the loss counter
becomes 0 on every cycle with presence true and is incremented by 1 on every
cycle with presence false; in monitor-only mode it is incremented by 1 every
cycle regardless of presence. -/
theorem C4_loss_counter_amended (present : Bool) (cnt : ℕ)
    (speed center gain : ℚ) :
    (lossStep false present cnt speed center gain).1 =
      (if present then 0 else cnt + 1) ∧
    (lossStep true present cnt speed center gain).1 = cnt + 1 := by
  cases present <;> exact ⟨rfl, rfl⟩

/-- Claim C5.  Feeding the smoothing filter with window size 4 the values
`[1, 2, 3, 4, 5]` sequentially from an empty buffer yields the outputs
`[1, 1.5, 2, 2.5, 3.5]`; the successive buffer states are
`[1], [1,2], [1,2,3], [1,2,3,4], [2,3,4,5]`, so the buffer length never
exceeds the window size. -/
theorem C5_smoothing_window4 :
    (feedAll SMOOTH_N [] [1, 2, 3, 4, 5]).2 = [1, 3/2, 2, 5/2, 7/2] ∧
    (feedAll SMOOTH_N [] [1, 2, 3, 4, 5]).1 =
      [[1], [1, 2], [1, 2, 3], [1, 2, 3, 4], [2, 3, 4, 5]] ∧
    ((feedAll SMOOTH_N [] [1, 2, 3, 4, 5]).1).map List.length =
      [1, 2, 3, 4, 4] ∧
    ((feedAll SMOOTH_N [] [1, 2, 3, 4, 5]).1).all
      (fun b => decide (b.length ≤ SMOOTH_N)) = true := by
  refine ⟨?_, ?_, ?_, ?_⟩ <;>
    simp [feedAll, moving_average, SMOOTH_N, fmean] <;>
    norm_num

/-- Claim C6.  The steering mixer returns
`(clamp (base_speed - gain*steer), clamp (base_speed + gain*steer))` with the
clamp to `[-1, 1]`, and `mix_to_motors 0.4 1.0 0.6 = (-0.2, 1.0)`. -/
theorem C6_steering_mixer (base_speed steer gain : ℚ) :
    mix_to_motors base_speed steer gain =
      (max (-1) (min 1 (base_speed - gain * steer)),
       max (-1) (min 1 (base_speed + gain * steer))) ∧
    mix_to_motors (4/10) 1 (6/10) = (-(1/5), 1) := by
  refine ⟨rfl, ?_⟩
  simp only [mix_to_motors]
  norm_num [min_def, max_def]

/-- Claim C7.  On the all-equal vector `[0.5, 0.5, 0.5, 0.5]` the raw centroid
has magnitude below the deadband, so the deadband triggers and
`compute_center` returns exactly 0. -/
theorem C7_deadband_zero :
    |centroid_raw [1/2, 1/2, 1/2, 1/2]| < DEADBAND ∧
    compute_center [1/2, 1/2, 1/2, 1/2] = 0 := by
  have hd : |centroid_raw [1/2, 1/2, 1/2, 1/2]| < DEADBAND := by
    rw [centroid_raw_flat]
    simp [DEADBAND]
  exact ⟨hd, compute_center_inside_deadband _ (by simp) hd⟩

/-- Counterexample to claim C8 as stated.  The source performs no
configuration validation: with an update rate of -5 Hz, a base speed of 3 and
a steering gain of -1 (all outside their documented ranges), startup still
produces the initial loop state with period 1 s, and the first control-loop
cycle runs and writes the motor command `(1, 1)`. -/
theorem C8_config_claim_counterexample :
    ((-5 : ℚ) ≤ 0) ∧ (1 < (3 : ℚ)) ∧ ((-1 : ℚ) < 0) ∧
    startup ⟨false, 3, -1, -5⟩ = (initialState, 1) ∧
    (loopCycle ⟨false, 3, -1, -5⟩ initialState [0, 0, 0, 0]).2 = (1, 1) := by
  refine ⟨by norm_num, by norm_num, by norm_num, ?_, ?_⟩
  · simp only [startup, period, Prod.mk.injEq]
    rw [max_eq_left (by norm_num : (-5 : ℚ) ≤ 1)]
    norm_num
  · simp [loopCycle, initialState, smoothStep, moving_average, SMOOTH_N,
      fmean, normalize, WHITE_IS_HIGH, line_present, THRESH, lossStep,
      LOSS_COUNT_LIMIT, mix_to_motors, compute_center, centroid_raw, weights,
      List.range_succ, DEADBAND]

/-- Claim C8 as amended.  Invalid configuration values are not rejected at
startup: startup always yields the initial loop state, an update rate ≤ 0 is
silently replaced by 1 Hz, and the control loop is entered and commands the
motors — the command of any cycle is merely clamped to `[-1, 1]`. -/
theorem C8_config_amended (args : Args) (raw : List ℚ)
    (hinvalid : args.hz ≤ 0 ∨ 1 < args.speed ∨ args.speed < 0 ∨ args.gain < 0) :
    startup args = (initialState, period args.hz) ∧
    (args.hz ≤ 0 → period args.hz = 1) ∧
    (-1 ≤ ((loopCycle args (startup args).1 raw).2).1 ∧
     ((loopCycle args (startup args).1 raw).2).1 ≤ 1 ∧
     -1 ≤ ((loopCycle args (startup args).1 raw).2).2 ∧
     ((loopCycle args (startup args).1 raw).2).2 ≤ 1) := by
  refine ⟨rfl, ?_, lossStep_cmd_mem _ _ _ _ _ _⟩
  intro h0
  rw [period, max_eq_left (h0.trans zero_le_one)]
  norm_num

/-- Witness for C8 as amended, at the invalid configuration
`(monitor := false, speed := 3, gain := -1, hz := -5)`. -/
theorem C8_config_amended_witness :
    ((-5 : ℚ) ≤ 0 ∨ 1 < (3 : ℚ) ∨ (3 : ℚ) < 0 ∨ (-1 : ℚ) < 0) ∧
    startup ⟨false, 3, -1, -5⟩ = (initialState, period (-5)) ∧
    period (-5) = 1 ∧
    -1 ≤ ((loopCycle ⟨false, 3, -1, -5⟩ (startup ⟨false, 3, -1, -5⟩).1
      [0, 0, 0, 0]).2).1 :=
  ⟨Or.inl (by norm_num),
   (C8_config_amended ⟨false, 3, -1, -5⟩ [0, 0, 0, 0] (Or.inl (by norm_num))).1,
   (C8_config_amended ⟨false, 3, -1, -5⟩ [0, 0, 0, 0]
     (Or.inl (by norm_num))).2.1 (by norm_num),
   ((C8_config_amended ⟨false, 3, -1, -5⟩ [0, 0, 0, 0]
     (Or.inl (by norm_num))).2.2).1⟩

/-- Claim C9.  On every cycle of the control loop, whatever the configuration,
loop state and raw sensor readings, the motor command written to the actuator
has both components in `[-1, 1]`. -/
theorem C9_command_clamped (args : Args) (st : LoopState) (raw : List ℚ) :
    -1 ≤ ((loopCycle args st raw).2).1 ∧ ((loopCycle args st raw).2).1 ≤ 1 ∧
    -1 ≤ ((loopCycle args st raw).2).2 ∧ ((loopCycle args st raw).2).2 ≤ 1 :=
  lossStep_cmd_mem _ _ _ _ _ _

/-- Claim C10.  The control loop's inter-cycle sleep period is
`1 / max 1 hz`: any rate below 1 Hz (zero and negative values included) is
silently treated as 1 Hz, and rates of at least 1 Hz are honoured as `1/hz`. -/
theorem C10_period_clamped (hz : ℚ) :
    period hz = 1 / max 1 hz ∧
    (hz < 1 → period hz = 1) ∧
    (1 ≤ hz → period hz = 1 / hz) := by
  refine ⟨rfl, ?_, ?_⟩
  · intro h
    rw [period, max_eq_left (le_of_lt h)]
    norm_num
  · intro h
    rw [period, max_eq_right h]

/-- Witness for C10 at the rates -2 Hz and 25 Hz. -/
theorem C10_period_clamped_witness :
    ((-2 : ℚ) < 1) ∧ period (-2) = 1 ∧ ((1 : ℚ) ≤ 25) ∧ period 25 = 1/25 :=
  ⟨by norm_num, (C10_period_clamped (-2)).2.1 (by norm_num),
   by norm_num, (C10_period_clamped 25).2.2 (by norm_num)⟩

end SToM2
